import Mathlib

/-!
Verification of the session-relevance engine of `codex_addons/list_sessions.py`.

Strings are embedded as `List Char`; Python functions over `str` become Lean
functions over `List Char`.  Filesystem paths are embedded as lists of path
components (the image of `Path(...).resolve()` on canonical absolute paths);
external collaborators (the `resolve` of repository paths inside
`normalize_repo_identifier`, the `git` queries behind `detect_git_metadata`)
are passed in as explicit function parameters.  Values coming out of JSON that
the code inspects before type-checking (the session timestamps) are kept as a
raw JSON value type, and Python exceptions are modelled with `Except`.
-/

namespace ListSessions

/-- Python whitespace predicate, matching `str.strip` / `str.split` with no
arguments (ASCII whitespace, C0 separators and the Unicode space separators). -/
def pyIsSpace (c : Char) : Bool :=
  c = ' ' || c = '\t' || c = '\n' || c = '\r' || c = '\x0b' || c = '\x0c' ||
  c = '\x1c' || c = '\x1d' || c = '\x1e' || c = '\x1f' || c = '\x85' || c = '\xa0' ||
  c = '\u1680' || (0x2000 ≤ c.toNat && c.toNat ≤ 0x200a) ||
  c = '\u2028' || c = '\u2029' || c = '\u202f' || c = '\u205f' || c = '\u3000'

/-- Python `str.lstrip()`. -/
def pyStripLeft (s : List Char) : List Char :=
  s.dropWhile pyIsSpace

/-- Python `str.rstrip()`. -/
def pyStripRight (s : List Char) : List Char :=
  (s.reverse.dropWhile pyIsSpace).reverse

/-- Python `str.strip()`. -/
def pyStrip (s : List Char) : List Char :=
  pyStripRight (pyStripLeft s)

/-- Python `str.lower()` (the identifiers compared here are ASCII). -/
def toLowerL (s : List Char) : List Char :=
  s.map Char.toLower

/-- Splits a character list into the maximal runs of characters for which `p`
is false, discarding the separators; with `p := pyIsSpace` this is Python
`str.split()` with no arguments. -/
def splitRunsAux (p : Char → Bool) : List Char → List Char → List (List Char)
  | [], cur => if cur = [] then [] else [cur.reverse]
  | c :: rest, cur =>
    if p c then
      if cur = [] then splitRunsAux p rest []
      else cur.reverse :: splitRunsAux p rest []
    else splitRunsAux p rest (c :: cur)

/-- Python `str.split()` with no arguments. -/
def pySplit (s : List Char) : List (List Char) :=
  splitRunsAux pyIsSpace s []

/-- `Path(s).resolve()` on a canonical absolute path string: the list of its
nonempty `/`-separated components.  Symlink and `..`/`~` resolution happen on
the real filesystem and are outside the embedding; the logs and queries under
verification use canonical absolute paths. -/
def resolvePath (s : List Char) : List (List Char) :=
  splitRunsAux (fun c => c = '/') s []

/-- Python `str.splitlines()` line-break characters. -/
def isLineBreakChar (c : Char) : Bool :=
  c = '\n' || c = '\r' || c = '\x0b' || c = '\x0c' ||
  c = '\x1c' || c = '\x1d' || c = '\x1e' || c = '\x85' ||
  c = '\u2028' || c = '\u2029'

/-- Worker for `splitlines`: `cur` holds the current line reversed. -/
def splitlinesAux : List Char → List Char → List (List Char)
  | [], cur => if cur = [] then [] else [cur.reverse]
  | '\r' :: '\n' :: rest, cur => cur.reverse :: splitlinesAux rest []
  | c :: rest, cur =>
    if isLineBreakChar c then cur.reverse :: splitlinesAux rest []
    else splitlinesAux rest (c :: cur)

/-- Python `str.splitlines()`. -/
def splitlines (s : List Char) : List (List Char) :=
  splitlinesAux s []

/-- First occurrence of the (nonempty) substring `sep` in `s`:
`some (before, after)` with `s = before ++ sep ++ after` at the leftmost
match, `none` when `sep` does not occur.  This models both Python's
`sep in s` test and `s.split(sep, 1)`. -/
def splitFirstSub (sep : List Char) : List Char → Option (List Char × List Char)
  | [] => none
  | c :: rest =>
    if sep.isPrefixOf (c :: rest) then some ([], (c :: rest).drop sep.length)
    else
      match splitFirstSub sep rest with
      | some (a, b) => some (c :: a, b)
      | none => none

/-- One-pass model of `re.sub(r"<[^>]+>", " ", s)`: `pending` holds the
characters consumed since the most recent unclosed `<` (in reverse, the `<`
innermost).  A `>` with at least one character after the `<` closes a match,
which is replaced by one space; a `<>` pair has an empty body, matches
nothing, and is emitted verbatim; an unclosed trailing `<...` is emitted
verbatim at the end of input. -/
def tagSubAux : List Char → List Char → List Char
  | [], pending => pending.reverse
  | c :: rest, [] =>
    if c = '<' then tagSubAux rest [c]
    else c :: tagSubAux rest []
  | c :: rest, p :: ps =>
    if c = '>' then
      if ps = [] then '<' :: '>' :: tagSubAux rest []
      else ' ' :: tagSubAux rest []
    else tagSubAux rest (c :: p :: ps)

/-- `TAG_PATTERN.sub(" ", s)` for `TAG_PATTERN = re.compile(r"<[^>]+>")`. -/
def tagSub (s : List Char) : List Char :=
  tagSubAux s []

/-- Python `s[:k]` for an arbitrary (possibly negative) `k`. -/
def pySliceTo (s : List Char) (k : Int) : List Char :=
  if 0 ≤ k then s.take k.toNat else s.take (s.length - (-k).toNat)

/-- `MAX_PROMPT_LENGTH` from the source. -/
def MAX_PROMPT_LENGTH : Int := 160

/-- `NOISE_PREFIXES` from the source. -/
def NOISE_PREFIXES : List (List Char) :=
  ["<environment_context".data, "<user_instructions".data,
   "<system_instructions".data, "<codex_resume".data]

/-- `is_noise_prompt`: blank after `lstrip`, or starting (case-insensitively)
with one of the structural markers. -/
def is_noise_prompt (prompt : List Char) : Bool :=
  let stripped := pyStripLeft prompt
  if stripped = [] then true
  else NOISE_PREFIXES.any (fun p => p.isPrefixOf (toLowerL stripped))

/-- The summary before the length cap is applied (`summary` in the source
just before the `len(summary) > max_length` check): strip tag markup, take the
first non-blank line (or collapse the whole text when every line is blank),
and collapse internal whitespace runs. -/
def summarizeCollapsed (prompt : List Char) : List Char :=
  let cleaned := tagSub prompt
  let meaningful :=
    match ((splitlines cleaned).map pyStrip).find? (fun l => !l.isEmpty) with
    | some l => l
    | none => List.intercalate [' '] (pySplit cleaned)
  List.intercalate [' '] (pySplit meaningful)

/-- `summarize_prompt`. -/
def summarize_prompt (prompt : List Char) (maxLength : Int) : List Char :=
  let summary := summarizeCollapsed prompt
  if summary = [] then []
  else if (summary.length : Int) > maxLength then
    pyStripRight (pySliceTo summary (maxLength - 1)) ++ ['…']
  else summary

/-- Leap year predicate of the proleptic Gregorian calendar. -/
def isLeapYear (y : Nat) : Bool :=
  (y % 4 = 0 && y % 100 != 0) || y % 400 = 0

/-- Days in a month of the given year. -/
def daysInMonth (y m : Nat) : Nat :=
  if m = 2 then (if isLeapYear y then 29 else 28)
  else if m = 4 || m = 6 || m = 9 || m = 11 then 30
  else 31

/-- Days in year `y` strictly before month `m`. -/
def daysBeforeMonth (y m : Nat) : Nat :=
  (List.range (m - 1)).foldl (fun acc i => acc + daysInMonth y (i + 1)) 0

/-- Proleptic-Gregorian day number of a date, `0` for 0001-01-01. -/
def dayNumber (y m d : Nat) : Nat :=
  (y - 1) * 365 + (y - 1) / 4 - (y - 1) / 100 + (y - 1) / 400 +
    daysBeforeMonth y m + (d - 1)

/-- Value of a decimal digit character. -/
def digitVal (c : Char) : Option Nat :=
  if c.isDigit then some (c.toNat - 48) else none

/-- Parses exactly `width` decimal digits onto the accumulator. -/
def parseFixedNat : Nat → Nat → List Char → Option (Nat × List Char)
  | 0, acc, s => some (acc, s)
  | n + 1, acc, c :: s =>
    match digitVal c with
    | some d => parseFixedNat n (acc * 10 + d) s
    | none => none
  | _ + 1, _, [] => none

/-- Greedily parses up to `fuel` digits; returns accumulator, digit count and
the rest of the input. -/
def parseFracDigits : Nat → Nat → Nat → List Char → Nat × Nat × List Char
  | 0, acc, k, s => (acc, k, s)
  | _ + 1, acc, k, [] => (acc, k, [])
  | n + 1, acc, k, c :: s =>
    match digitVal c with
    | some d => parseFracDigits n (acc * 10 + d) (k + 1) s
    | none => (acc, k, c :: s)

/-- Parses `HH:MM[:SS[.ffffff]]`: hour, minute, second, microsecond, rest. -/
def parseTimePart (s : List Char) : Option (Nat × Nat × Nat × Nat × List Char) :=
  match parseFixedNat 2 0 s with
  | none => none
  | some (h, s1) =>
    match s1 with
    | ':' :: s2 =>
      match parseFixedNat 2 0 s2 with
      | none => none
      | some (mi, s3) =>
        match s3 with
        | ':' :: s4 =>
          match parseFixedNat 2 0 s4 with
          | none => none
          | some (sec, s5) =>
            match s5 with
            | '.' :: s6 =>
              match parseFracDigits 6 0 0 s6 with
              | (acc, k, s7) =>
                if k = 0 then none
                else if (s7.head?.map Char.isDigit).getD false then none
                else some (h, mi, sec, acc * 10 ^ (6 - k), s7)
            | _ => some (h, mi, sec, 0, s5)
        | _ => some (h, mi, 0, 0, s3)
    | _ => none

/-- Parses a `±HH:MM` UTC offset as a signed number of microseconds. -/
def parseOffset (s : List Char) : Option (Int × List Char) :=
  match s with
  | [] => none
  | sign :: s1 =>
    if sign = '+' || sign = '-' then
      match parseFixedNat 2 0 s1 with
      | some (oh, ':' :: s2) =>
        match parseFixedNat 2 0 s2 with
        | some (om, s3) =>
          if oh ≤ 23 && om ≤ 59 then
            let micro : Int := ((oh * 3600 + om * 60) * 1000000 : Nat)
            some (if sign = '-' then -micro else micro, s3)
          else none
        | none => none
      | _ => none
    else none

/-- `datetime.fromisoformat` on the grammar
`YYYY-MM-DD[*HH:MM[:SS[.ffffff]]][±HH:MM]` (`*` any separator character),
with calendar and range validation, returned as the instant's microsecond
count relative to the UTC epoch of the calendar; a missing offset yields the
naive count, which the `parse_timestamp` wrapper treats as UTC.  `none`
models `ValueError`. -/
def fromisoformat (s : List Char) : Option Int :=
  match parseFixedNat 4 0 s with
  | none => none
  | some (y, s1) =>
    match s1 with
    | '-' :: s2 =>
      match parseFixedNat 2 0 s2 with
      | none => none
      | some (mo, s3) =>
        match s3 with
        | '-' :: s4 =>
          match parseFixedNat 2 0 s4 with
          | none => none
          | some (d, s5) =>
            if y < 1 || mo < 1 || mo > 12 || d < 1 || d > daysInMonth y mo then none
            else
              match s5 with
              | [] => some ((dayNumber y mo d * 86400 * 1000000 : Nat) : Int)
              | _ :: s6 =>
                match parseTimePart s6 with
                | none => none
                | some (h, mi, sec, us, s7) =>
                  if h > 23 || mi > 59 || sec > 59 then none
                  else
                    let naive : Int :=
                      ((dayNumber y mo d * 86400 + h * 3600 + mi * 60 + sec) * 1000000
                        + us : Nat)
                    match s7 with
                    | [] => some naive
                    | _ =>
                      match parseOffset s7 with
                      | some (off, []) => some (naive - off)
                      | _ => none
        | _ => none
    | _ => none

/-- A JSON scalar as stored on a log line.  The timestamp fields are kept in
this raw form because `load_session` only checks them for truthiness before
handing them to `parse_timestamp`. -/
inductive JVal where
  | jnull
  | jstr (s : List Char)
  | jnum (n : Int)
  | jbool (b : Bool)
deriving DecidableEq

/-- The Python exceptions that matter to the parsing core. -/
inductive PyErr where
  | valueError
  | attributeError
deriving DecidableEq

/-- Python truthiness of a JSON scalar. -/
def jTruthy : JVal → Bool
  | .jnull => false
  | .jstr s => !s.isEmpty
  | .jnum n => n != 0
  | .jbool b => b

/-- Truthiness of a `dict.get`-style lookup result: absent is falsy. -/
def jTruthyO : Option JVal → Bool
  | none => false
  | some v => jTruthy v

/-- Truthiness of an optional string: absent and empty are falsy. -/
def truthyS : Option (List Char) → Bool
  | none => false
  | some s => !s.isEmpty

/-- `parse_timestamp`: rewrites a trailing `"Z"` to `"+00:00"`, then parses an
ISO-8601 instant; a naive result is treated as UTC.  A string that does not
parse raises `ValueError`; a non-string value raises `AttributeError` at
`raw.endswith` before any parsing happens. -/
def parse_timestamp (raw : JVal) : Except PyErr Int :=
  match raw with
  | .jstr s =>
    let s2 := if s.getLast? = some 'Z' then s.dropLast ++ "+00:00".data else s
    match fromisoformat s2 with
    | some v => .ok v
    | none => .error .valueError
  | _ => .error .attributeError

/-- One content block of a user message (`payload.content[i]`), with its
optional `text` field. -/
structure ContentBlock where
  text : Option (List Char)
deriving DecidableEq

/-- The fields of a `session_meta` event that `load_session` reads. -/
structure MetaEvent where
  payload_cwd : Option (List Char)
  payload_timestamp : Option JVal
  top_timestamp : Option JVal
  payload_id : Option (List Char)
  top_id : Option (List Char)
  git_branch : Option (List Char)
  git_repository : Option (List Char)
deriving DecidableEq

/-- One line of a `.jsonl` log, as classified by `load_session`'s loop: a
line that fails `json.loads` (or is blank), a `session_meta` event, a
user-role message response item, or any other event. -/
inductive LogLine where
  | malformed
  | other
  | sessionMeta (m : MetaEvent)
  | userMessage (content : List ContentBlock)
deriving DecidableEq

/-- `SessionSummary`; the timestamp is the parsed instant in microseconds. -/
structure SessionSummary where
  timestamp : Int
  cwd : List (List Char)
  file_path : List Char
  prompt : List Char
  session_id : List Char
  git_branch : Option (List Char)
  git_repository : Option (List Char)
deriving DecidableEq

instance : Inhabited SessionSummary :=
  ⟨⟨0, [], [], [], [], none, none⟩⟩

/-- `GitContext`. -/
structure GitContext where
  branch : Option (List Char)
  repository : Option (List Char)
deriving DecidableEq

/-- A discovered log file: its path and its parsed lines. -/
structure LogFile where
  path : List Char
  lines : List LogLine
deriving DecidableEq

/-- `extract_prompt`: the stripped nonempty text blocks joined by newlines. -/
def extract_prompt (content : List ContentBlock) : List Char :=
  let parts := content.filterMap (fun b =>
    match b.text with
    | some t => if t = [] then none else some (pyStrip t)
    | none => none)
  List.intercalate ['\n'] (parts.filter (fun part => part ≠ []))

/-- The scanning loop of `load_session` (source lines 116-139): it reassigns
the tracked metadata at every `session_meta` event and stops at the first
user message that is not noise and has a nonempty summary, returning the
metadata in effect at the stop (or at end of file) with the accepted prompt. -/
def scanLoop : List LogLine → Option MetaEvent → Option MetaEvent × Option (List Char)
  | [], meta => (meta, none)
  | line :: rest, meta =>
    match line with
    | .sessionMeta m => scanLoop rest (some m)
    | .userMessage content =>
      let candidate := extract_prompt content
      if is_noise_prompt candidate then scanLoop rest meta
      else if summarize_prompt candidate MAX_PROMPT_LENGTH = [] then scanLoop rest meta
      else (meta, some candidate)
    | _ => scanLoop rest meta

/-- `load_session`.  The `try/except ValueError` around `parse_timestamp`
recovers only `ValueError`; any other exception propagates to the caller. -/
def load_session (file_path : List Char) (lines : List LogLine) :
    Except PyErr (Option SessionSummary) :=
  match scanLoop lines none with
  | (some meta, some first_user_prompt) =>
    let raw_cwd := meta.payload_cwd
    let raw_timestamp :=
      if jTruthyO meta.payload_timestamp then meta.payload_timestamp
      else meta.top_timestamp
    let session_id :=
      if truthyS meta.payload_id then meta.payload_id.getD []
      else meta.top_id.getD []
    if !truthyS raw_cwd || !jTruthyO raw_timestamp then .ok none
    else
      match raw_timestamp with
      | some rawTs =>
        match parse_timestamp rawTs with
        | .error .valueError => .ok none
        | .error e => .error e
        | .ok timestamp =>
          let prompt := pyStrip first_user_prompt
          if prompt = [] then .ok none
          else
            .ok (some
              { timestamp := timestamp
                cwd := resolvePath (raw_cwd.getD [])
                file_path := file_path
                prompt := prompt
                session_id := session_id
                git_branch := meta.git_branch
                git_repository := meta.git_repository })
      | none => .ok none
  | _ => .ok none

/-- `str.strip("/")`. -/
def stripSlash (s : List Char) : List Char :=
  ((s.dropWhile (fun c => c = '/')).reverse.dropWhile (fun c => c = '/')).reverse

/-- The tail of `normalize_repo_identifier` after the SSH/URL rewriting: path
expansion or slash-stripping, `.git`-suffix stripping, lower-casing.
`resolve` stands for `str(Path(value).expanduser().resolve())`, the process
view of the filesystem. -/
def normalizeTail (resolve : List Char → List Char) (v : List Char) : List Char :=
  let v2 :=
    if v.head? = some '~' || v.head? = some '/' then resolve v
    else stripSlash v
  let v3 := if ".git".data.isSuffixOf v2 then v2.take (v2.length - 4) else v2
  toLowerL v3

/-- The body of `normalize_repo_identifier` on the stripped nonempty value. -/
def normalizeCore (resolve : List Char → List Char) (value : List Char) : List Char :=
  let v1 :=
    if "git@".data.isPrefixOf value then
      let rest := value.drop 4
      match splitFirstSub [':'] rest with
      | some (user, tail0) => user ++ '/' :: tail0
      | none => rest
    else
      match splitFirstSub "://".data value with
      | some (_, after) => after
      | none => value
  normalizeTail resolve v1

/-- `normalize_repo_identifier`. -/
def normalize_repo_identifier (resolve : List Char → List Char)
    (identifier : Option (List Char)) : Option (List Char) :=
  match identifier with
  | none => none
  | some raw =>
    let value := pyStrip raw
    if value = [] then none
    else some (normalizeCore resolve value)

/-- `repo_matches`: absence (or emptiness) of either identifier is
permissive; otherwise the normalized identifiers must be equal. -/
def repo_matches (resolve : List Char → List Char)
    (session_repo context_repo : Option (List Char)) : Bool :=
  if !truthyS context_repo then true
  else if !truthyS session_repo then true
  else
    decide (normalize_repo_identifier resolve session_repo
      = normalize_repo_identifier resolve context_repo)

/-- `is_relevant_session` on resolved paths: mutual ancestor-or-equal
containment; `relative_to` succeeds exactly when the base is a component
prefix. -/
def is_relevant_session (session_cwd current_dir : List (List Char)) : Bool :=
  session_cwd.isPrefixOf current_dir || current_dir.isPrefixOf session_cwd

/-- The inclusion decision of `gather_summaries` (source lines 286-299) for
one (possibly back-filled) record, given the path-relevance verdict. -/
def includeDecision (resolve : List Char → List Char) (path_match : Bool)
    (summary : SessionSummary) (git_context : Option GitContext) : Bool :=
  match git_context with
  | none => path_match
  | some gc =>
    if truthyS gc.branch then
      decide (summary.git_branch = gc.branch) &&
        repo_matches resolve summary.git_repository gc.repository
    else if truthyS gc.repository then
      path_match || repo_matches resolve summary.git_repository gc.repository
    else path_match

/-- The lazy back-fill of a record's git fields (source lines 276-284). -/
def backfillGit (detect : List (List Char) → GitContext)
    (git_context : Option GitContext) (require_git_lookup : Bool)
    (summary : SessionSummary) : SessionSummary :=
  match git_context with
  | none => summary
  | some gc =>
    if require_git_lookup &&
        (summary.git_branch.isNone ||
          (truthyS gc.repository && summary.git_repository.isNone)) then
      let metadata := detect summary.cwd
      let s1 :=
        if summary.git_branch.isNone then { summary with git_branch := metadata.branch }
        else summary
      if s1.git_repository.isNone then { s1 with git_repository := metadata.repository }
      else s1
    else summary

/-- Inserts into a list sorted by descending timestamp, after every entry
with an equal or larger key; folding it over the input is the stable
descending sort `summaries.sort(key=..., reverse=True)`. -/
def insertByTsDesc (x : SessionSummary) :
    List SessionSummary → List SessionSummary
  | [] => [x]
  | y :: ys =>
    if y.timestamp < x.timestamp then x :: y :: ys else y :: insertByTsDesc x ys

/-- Stable sort by descending timestamp. -/
def sortByTimestampDesc (l : List SessionSummary) : List SessionSummary :=
  l.foldl (fun acc x => insertByTsDesc x acc) []

/-- The per-file loop of `gather_summaries`: parse every log in discovery
order, silently dropping unparseable files; an uncaught exception aborts the
whole scan. -/
def loadAll : List LogFile → Except PyErr (List SessionSummary)
  | [] => .ok []
  | f :: fs =>
    match load_session f.path f.lines with
    | .error e => .error e
    | .ok none => loadAll fs
    | .ok (some s) =>
      match loadAll fs with
      | .error e => .error e
      | .ok rest => .ok (s :: rest)

/-- `gather_summaries`. -/
def gather_summaries (resolve : List Char → List Char)
    (detect : List (List Char) → GitContext) (files : List LogFile)
    (current_dir : List (List Char)) (limit : Option Nat)
    (git_context : Option GitContext) (require_git_lookup : Bool) :
    Except PyErr (List SessionSummary) :=
  match loadAll files with
  | .error e => .error e
  | .ok recs =>
    let processed := recs.map (backfillGit detect git_context require_git_lookup)
    let kept := processed.filter (fun s =>
      includeDecision resolve (is_relevant_session s.cwd current_dir) s git_context)
    let sorted := sortByTimestampDesc kept
    match limit with
    | some n => .ok (sorted.take n)
    | none => .ok sorted

/-- The state of a record's backing file on disk at one deletion attempt:
already missing, present but `unlink` raises `OSError` with the given text,
or present and removable. -/
inductive FileState where
  | missing
  | presentFailing (exc : List Char)
  | present
deriving DecidableEq

/-- `delete_session` from `main`, with its side effect made explicit: the
file state after the attempt together with the `(deleted, notice)` pair
handed back to the picker. -/
def delete_session (disk : FileState) (target : SessionSummary) :
    FileState × Bool × List Char :=
  match disk with
  | .missing => (.missing, false, "Session file already removed.".data)
  | .presentFailing exc =>
    (.presentFailing exc, false, "Failed to delete: ".data ++ exc)
  | .present => (.missing, true, "Deleted session ".data ++ target.session_id)

/-- The outcome of the picker's confirm-delete yes-branch. -/
structure DeleteStepResult where
  disk : FileState
  summaries : List SessionSummary
  current : Nat
  status : List Char
  exitedEmpty : Bool
deriving DecidableEq

/-- The yes-branch of the confirm-delete sub-state (source lines 388-398):
invoke the delete handler first; pop the record, shrink the total and clamp
the cursor only when the handler reported success; exit with no selection
when the list empties. -/
def confirmDeleteYes (disk : FileState) (summaries : List SessionSummary)
    (current : Nat) : DeleteStepResult :=
  let target := summaries.getD current default
  match delete_session disk target with
  | (disk2, deleted, notice) =>
    if deleted then
      let rest := summaries.eraseIdx current
      if rest.length = 0 then ⟨disk2, rest, current, notice, true⟩
      else if current ≥ rest.length then ⟨disk2, rest, rest.length - 1, notice, false⟩
      else ⟨disk2, rest, current, notice, false⟩
    else ⟨disk2, summaries, current, notice, false⟩

/-- Builds a `session_meta` event with the given cwd and timestamp strings. -/
def mkMeta (cwd ts : String) : MetaEvent :=
  { payload_cwd := some cwd.data
    payload_timestamp := some (.jstr ts.data)
    top_timestamp := none
    payload_id := some "sid".data
    top_id := none
    git_branch := none
    git_repository := none }

/-- Builds a user message with one text content block. -/
def mkUserMsg (t : String) : LogLine :=
  .userMessage [⟨some t.data⟩]

/-- A git detector that finds nothing. -/
def noGit : List (List Char) → GitContext := fun _ => ⟨none, none⟩

/-- Projection of a gathered record to its working directory and its
summarized prompt. -/
def recordView (s : SessionSummary) : List (List Char) × List Char :=
  (s.cwd, summarize_prompt s.prompt MAX_PROMPT_LENGTH)

/-- The earlier log of the end-to-end scenario: cwd `/work/proj`. -/
def c1LogProj : LogFile :=
  ⟨"proj.jsonl".data,
   [.sessionMeta (mkMeta "/work/proj" "2025-01-01T10:00:00Z"),
    mkUserMsg "Fix the flaky test in retry logic"]⟩

/-- The later log exactly as the claim states it: cwd `/work/proj/sub`, with a
single user message whose assembled text is the noise block followed by the
prompt on the next line. -/
def c1LogSubSingle : LogFile :=
  ⟨"sub.jsonl".data,
   [.sessionMeta (mkMeta "/work/proj/sub" "2025-01-02T10:00:00Z"),
    mkUserMsg "<environment_context>…</environment_context>\nAdd caching layer"]⟩

/-- The later log with the noise block and the prompt as two separate user
messages. -/
def c1LogSubSplit : LogFile :=
  ⟨"sub.jsonl".data,
   [.sessionMeta (mkMeta "/work/proj/sub" "2025-01-02T10:00:00Z"),
    mkUserMsg "<environment_context>…</environment_context>",
    mkUserMsg "Add caching layer"]⟩

/-- The query directory `/work/proj/sub`. -/
def c1CurrentDir : List (List Char) :=
  ["work".data, "proj".data, "sub".data]

/-- Claim C1, counterexample: in the stated scenario the second log's only
user message starts with the environment-context marker, so `is_noise_prompt`
classifies the whole message as noise and `load_session` finds no prompt at
all; the second log yields no record and gathering from `/work/proj/sub`
returns only the earlier record, not both. -/
theorem c1_single_noise_message_drops_log :
    load_session c1LogSubSingle.path c1LogSubSingle.lines = .ok none ∧
    (gather_summaries id noGit [c1LogProj, c1LogSubSingle] c1CurrentDir
        none none false).map (List.map recordView)
      = .ok [(["work".data, "proj".data],
              "Fix the flaky test in retry logic".data)] :=
  ⟨rfl, rfl⟩

/-- Claim C1, amended: when the noise block and the prompt arrive as two
separate user messages, the noise message is skipped whole and the next
message is used; gathering from `/work/proj/sub` with no git context then
returns both records ordered newest first, and the record of the second log
(first in the output) has summarized prompt exactly "Add caching layer". -/
theorem c1_end_to_end_split_messages :
    (gather_summaries id noGit [c1LogProj, c1LogSubSplit] c1CurrentDir
        none none false).map (List.map recordView)
      = .ok [(["work".data, "proj".data, "sub".data], "Add caching layer".data),
             (["work".data, "proj".data],
              "Fix the flaky test in retry logic".data)] ∧
    (match gather_summaries id noGit [c1LogProj, c1LogSubSplit] c1CurrentDir
        none none false with
      | .ok (a :: b :: _) => decide (b.timestamp < a.timestamp)
      | _ => false) = true :=
  ⟨rfl, rfl⟩

/-- A log with two `session_meta` events before the first accepted prompt. -/
def c3Log : List LogLine :=
  [.sessionMeta (mkMeta "/a" "2025-03-01T00:00:00Z"),
   .sessionMeta (mkMeta "/b" "2025-03-02T00:00:00Z"),
   mkUserMsg "hello"]

/-- Claim C3, counterexample: with two session-metadata events before the
first accepted prompt, the record's working directory comes from the second
event (`/b`), not the first (`/a`): the loop reassigns `session_meta` on
every such event, so the last one before the scan stops wins. -/
theorem c3_second_meta_wins :
    (load_session "log.jsonl".data c3Log).map (Option.map SessionSummary.cwd)
      = .ok (some ["b".data]) ∧
    (["b".data] : List (List Char)) ≠ ["a".data] :=
  ⟨rfl, by decide⟩

/-- A log whose first non-noise user prompt summarizes to the empty string,
followed by a further user message. -/
def c4Log : List LogLine :=
  [.sessionMeta (mkMeta "/a" "2025-03-01T00:00:00Z"),
   mkUserMsg "<foo>", mkUserMsg "hello"]

/-- Claim C4, counterexample: `"<foo>"` is not noise but summarizes to the
empty string; the parser does not fail there — it keeps scanning and accepts
the later message `"hello"`, returning a record rather than `None`. -/
theorem c4_empty_summary_prompt_skipped :
    is_noise_prompt "<foo>".data = false ∧
    summarize_prompt "<foo>".data MAX_PROMPT_LENGTH = [] ∧
    (load_session "log.jsonl".data c4Log).map (Option.map SessionSummary.prompt)
      = .ok (some "hello".data) :=
  ⟨rfl, rfl, rfl⟩

/-- A `session_meta` event whose timestamp is the JSON number `123`. -/
def c5BadMeta : MetaEvent :=
  { payload_cwd := some "/w".data
    payload_timestamp := some (.jnum 123)
    top_timestamp := none
    payload_id := none
    top_id := none
    git_branch := none
    git_repository := none }

/-- A log whose metadata carries the non-string timestamp. -/
def c5BadFile : LogFile :=
  ⟨"bad.jsonl".data, [.sessionMeta c5BadMeta, mkUserMsg "hello"]⟩

/-- A log whose metadata timestamp is a string that is not ISO-8601. -/
def c5StrBadFile : LogFile :=
  ⟨"strbad.jsonl".data,
   [.sessionMeta (mkMeta "/w" "not-a-date"), mkUserMsg "hello"]⟩

/-- A well-formed log. -/
def c5GoodFile : LogFile :=
  ⟨"good.jsonl".data,
   [.sessionMeta (mkMeta "/w" "2025-03-01T00:00:00Z"), mkUserMsg "hi there"]⟩

/-- Claim C5 (code bug): a malformed timestamp *string* is recovered — the
record is discarded — but a timestamp of any non-string JSON type reaches
`raw.endswith` inside `parse_timestamp` and raises `AttributeError`, which
the `except ValueError` handler does not catch; the exception escapes
`load_session` and aborts the aggregator's scan, losing even the records of
earlier well-formed logs. -/
theorem c5_nonstring_timestamp_aborts_scan :
    load_session c5StrBadFile.path c5StrBadFile.lines = .ok none ∧
    load_session c5BadFile.path c5BadFile.lines = .error .attributeError ∧
    (load_session c5GoodFile.path c5GoodFile.lines).map
      (Option.map SessionSummary.prompt) = .ok (some "hi there".data) ∧
    gather_summaries id noGit [c5GoodFile, c5BadFile] ["w".data]
      none none false = .error .attributeError :=
  ⟨rfl, rfl, rfl, rfl⟩

/-- Claim C6, counterexample: `normalize_repo_identifier` is not idempotent
on its own outputs — `"a.git.git"` normalizes to `"a.git"`, and normalizing
that value again strips a further `.git` suffix, giving `"a"`. -/
theorem c6_not_idempotent :
    normalize_repo_identifier id (some "a.git.git".data) = some "a.git".data ∧
    normalize_repo_identifier id (some "a.git".data) = some "a".data ∧
    (some "a.git".data : Option (List Char)) ≠ some "a".data :=
  ⟨rfl, rfl, by decide⟩

/-- Claim C7, counterexample: only the literal marker `git@` is rewritten.
For any other user the SSH shorthand is left in colon form, so
`"alice@github.com:acme/repo.git"` does not normalize to the slash form and
differs from the normalization of the HTTPS spelling. -/
theorem c7_non_git_user_not_rewritten :
    normalize_repo_identifier id (some "alice@github.com:acme/repo.git".data)
      = some "alice@github.com:acme/repo".data ∧
    normalize_repo_identifier id (some "https://github.com/acme/repo.git".data)
      = some "github.com/acme/repo".data ∧
    (some "alice@github.com:acme/repo".data : Option (List Char))
      ≠ some "github.com/acme/repo".data :=
  ⟨rfl, rfl, by decide⟩

/-- Claim C8, counterexample: for the prompt `"ab cd"` (collapsed length 5)
and cap 4, truncation to `cap - 1` characters leaves the trailing space
`"ab "`, which `rstrip` removes before appending the ellipsis; the result
`"ab…"` has length 3, not exactly the cap. -/
theorem c8_truncation_shorter_than_cap :
    summarizeCollapsed "ab cd".data = "ab cd".data ∧
    ("ab cd".data : List Char).length = 4 + 1 ∧
    summarize_prompt "ab cd".data 4 = "ab…".data ∧
    (summarize_prompt "ab cd".data 4).length ≠ 4 :=
  ⟨rfl, rfl, rfl, by decide⟩

/-- Claim C10: `normalize_repo_identifier` maps the non-empty, non-whitespace
input `".git"` to the empty string rather than `None` (the emptiness checks
happen only on entry), and a second distinct input `".git/"` also normalizes
to the empty string, so the two compare equal under `repo_matches`'s
normalized-equality rule. -/
theorem c10_empty_normal_form :
    normalize_repo_identifier id (some ".git".data) = some [] ∧
    normalize_repo_identifier id (some ".git/".data) = some [] ∧
    (".git".data : List Char) ≠ ".git/".data ∧
    repo_matches id (some ".git".data) (some ".git/".data) = true :=
  ⟨rfl, rfl, by decide, rfl⟩

/-- Claim C2: whenever the query's git context carries a known (truthy)
branch, a record is included exactly when its branch equals the query branch
and the repositories match under the permissive rule — the query repository
is absent or empty, or the record repository is absent or empty, or the two
normalized identifiers are equal.  Path relevance plays no role in this case. -/
theorem c2_branch_filter_iff (resolve : List Char → List Char)
    (path_match : Bool) (s : SessionSummary) (gc : GitContext)
    (hb : truthyS gc.branch = true) :
    includeDecision resolve path_match s (some gc) = true ↔
      (s.git_branch = gc.branch ∧
        (truthyS gc.repository = false ∨ truthyS s.git_repository = false ∨
          normalize_repo_identifier resolve s.git_repository
            = normalize_repo_identifier resolve gc.repository)) := by
  simp only [includeDecision, hb, if_true, Bool.and_eq_true, decide_eq_true_eq,
    repo_matches]
  by_cases h1 : truthyS gc.repository
  · by_cases h2 : truthyS s.git_repository
    · simp [h1, h2]
    · simp [h1, h2]
  · simp [h1]

/-- The query context of the branch-matching example: branch `main` with a
known repository. -/
def c2Ctx : GitContext :=
  ⟨some "main".data, some "github.com/acme/repo".data⟩

/-- A record on branch `main` with no repository info. -/
def c2MainRecord : SessionSummary :=
  ⟨0, [], [], [], [], some "main".data, none⟩

/-- A record on branch `dev` with a matching repository. -/
def c2DevRecord : SessionSummary :=
  ⟨0, [], [], [], [], some "dev".data, some "github.com/acme/repo".data⟩

/-- Witness for `c2_branch_filter_iff`: with query branch `main`, the
branch-`main` record with no repository info is included even without path
relevance, and the branch-`dev` record is excluded even with path relevance. -/
theorem c2_branch_filter_iff_witness :
    includeDecision id false c2MainRecord (some c2Ctx) = true ∧
    ¬ includeDecision id true c2DevRecord (some c2Ctx) = true := by
  constructor
  · exact (c2_branch_filter_iff id false c2MainRecord c2Ctx (by decide)).mpr
      ⟨rfl, Or.inr (Or.inl rfl)⟩
  · intro hc
    have hiff := (c2_branch_filter_iff id true c2DevRecord c2Ctx (by decide)).mp hc
    exact absurd hiff.1 (by decide)

/-- Claim C3, amended: the parser takes the record's metadata from the last
session-metadata event read before the scan stops at the first accepted user
prompt — the loop reassigns its metadata slot at every such event — not from
the first one. -/
theorem c3_last_meta_before_stop (ms : List MetaEvent) (m : MetaEvent)
    (content : List ContentBlock) (acc : Option MetaEvent)
    (hnoise : is_noise_prompt (extract_prompt content) = false)
    (hsum : summarize_prompt (extract_prompt content) MAX_PROMPT_LENGTH ≠ []) :
    scanLoop ((ms ++ [m]).map LogLine.sessionMeta
        ++ [LogLine.userMessage content]) acc
      = (some m, some (extract_prompt content)) := by
  induction ms generalizing acc with
  | nil => simp [scanLoop, hnoise, hsum]
  | cons x xs ih => simpa [scanLoop] using ih (some x)

/-- Witness for `c3_last_meta_before_stop` on a log with two metadata events
followed by an accepted prompt: the second event's metadata is returned. -/
theorem c3_last_meta_before_stop_witness :
    scanLoop ([mkMeta "/a" "t1", mkMeta "/b" "t2"].map LogLine.sessionMeta
        ++ [LogLine.userMessage [⟨some "hello".data⟩]]) none
      = (some (mkMeta "/b" "t2"), some "hello".data) :=
  c3_last_meta_before_stop [mkMeta "/a" "t1"] (mkMeta "/b" "t2")
    [⟨some "hello".data⟩] none (by decide) (by decide)

/-- The prompt a log line contributes to the scan, if it is a user message. -/
def promptOfLine : LogLine → Option (List Char)
  | .userMessage content => some (extract_prompt content)
  | _ => none

/-- Claim C4, amended: a non-noise user prompt whose summary is empty is
skipped, not fatal — the scan returns exactly the first user-message text
that is neither noise nor empty after summarization, continuing past every
rejected message. -/
theorem c4_scan_accepts_first_valid_prompt (lines : List LogLine)
    (acc : Option MetaEvent) :
    (scanLoop lines acc).2
      = (lines.filterMap promptOfLine).find?
          (fun p => !is_noise_prompt p &&
            !decide (summarize_prompt p MAX_PROMPT_LENGTH = [])) := by
  induction lines generalizing acc with
  | nil => rfl
  | cons l rest ih =>
    cases l with
    | malformed => simpa [scanLoop, promptOfLine] using ih acc
    | other => simpa [scanLoop, promptOfLine] using ih acc
    | sessionMeta m => simpa [scanLoop, promptOfLine] using ih (some m)
    | userMessage content =>
      by_cases h1 : is_noise_prompt (extract_prompt content) = true
      · simp [scanLoop, promptOfLine, List.find?, h1, ih acc]
      · rw [Bool.not_eq_true] at h1
        by_cases h2 :
            summarize_prompt (extract_prompt content) MAX_PROMPT_LENGTH = []
        · simp [scanLoop, promptOfLine, List.find?, h1, h2, ih acc]
        · simp [scanLoop, promptOfLine, List.find?, h1, h2]

/-- Claim C6, amended: `normalize_repo_identifier` is a fixed point on every
value in the following normal form — nonempty, no surrounding whitespace, no
`git@` marker, no `://`, not path-like, no surrounding slashes, no `.git`
suffix, already lower-case.  The conditions are sufficient, not necessary:
other fixed points exist (a canonical absolute path that `resolve` maps to
itself), and outputs of the function need not be in this form —
`c6_not_idempotent` shows an output that still ends in `.git`. -/
theorem c6_normal_form_fixed_point (resolve : List Char → List Char)
    (y : List Char) (hne : y ≠ [])
    (hstrip : pyStrip y = y)
    (hgat : "git@".data.isPrefixOf y = false)
    (hurl : splitFirstSub "://".data y = none)
    (htilde : y.head? ≠ some '~')
    (hslashHead : y.head? ≠ some '/')
    (hslash : stripSlash y = y)
    (hsuffix : ".git".data.isSuffixOf y = false)
    (hlower : toLowerL y = y) :
    normalize_repo_identifier resolve (some y) = some y := by
  simp only [normalize_repo_identifier, hstrip, if_neg hne]
  simp only [normalizeCore, hgat, Bool.false_eq_true, if_false, hurl]
  have hsuffix2 : ['.', 'g', 'i', 't'].isSuffixOf y = false := hsuffix
  simp only [normalizeTail, htilde, hslashHead, decide_eq_false, decide_False,
    Bool.or_self, Bool.false_eq_true, if_false, hslash, hsuffix2, hlower]

/-- Witness for `c6_normal_form_fixed_point` at the already-normalized value
`github.com/acme/repo`. -/
theorem c6_normal_form_fixed_point_witness :
    normalize_repo_identifier id (some "github.com/acme/repo".data)
      = some "github.com/acme/repo".data :=
  c6_normal_form_fixed_point id "github.com/acme/repo".data (by decide)
    (by decide) (by decide) (by decide) (by decide) (by decide) (by decide)
    (by decide) (by decide)

/-- A list is a `isPrefixOf`-prefix of itself followed by anything. -/
theorem isPrefixOf_append_self (l t : List Char) : l.isPrefixOf (l ++ t) = true := by
  rw [List.isPrefixOf_iff_prefix]
  exact List.prefix_append l t

/-- Splitting `a ++ ":" ++ b` at the first colon recovers `(a, b)` when `a`
contains no colon. -/
theorem splitFirstSub_colon (a b : List Char) (ha : ':' ∉ a) :
    splitFirstSub [':'] (a ++ ':' :: b) = some (a, b) := by
  induction a with
  | nil => simp [splitFirstSub]
  | cons c cs ih =>
    simp only [List.mem_cons, not_or] at ha
    obtain ⟨h1, h2⟩ := ha
    have hb : ((':' : Char) == c) = false := beq_eq_false_iff_ne.mpr h1
    have hbeq : ([':'] : List Char).isPrefixOf (c :: (cs ++ ':' :: b)) = false := by
      simp [List.isPrefixOf, hb]
    simp only [List.cons_append, splitFirstSub, List.append_eq, hbeq,
      Bool.false_eq_true, if_false, ih h2]

/-- The first `://` of `https://` followed by anything is the one of the
scheme itself. -/
theorem splitFirstSub_https (x : List Char) :
    splitFirstSub "://".data ("https://".data ++ x) = some ("https".data, x) := by
  show splitFirstSub [':', '/', '/']
      ('h' :: 't' :: 't' :: 'p' :: 's' :: ':' :: '/' :: '/' :: x)
    = some (['h', 't', 't', 'p', 's'], x)
  simp [splitFirstSub, List.isPrefixOf]

/-- `git@` is never a prefix of an `https://` URL. -/
theorem gitat_not_prefix_https (x : List Char) :
    "git@".data.isPrefixOf ("https://".data ++ x) = false := by
  have hgh : (('g' : Char) == 'h') = false := by decide
  show (['g', 'i', 't', '@'] : List Char).isPrefixOf ('h' :: ("ttps://".data ++ x))
    = false
  simp [List.isPrefixOf, hgh]

/-- Claim C7, amended: the SSH rewriting fires on the literal marker `git@`
only.  For it, the `user@` marker is stripped and the first colon becomes a
slash, so for every colon-free host and every path the `git@host:path`
shorthand and the `https://host/path` spelling normalize identically (both
reduce to `host/path` before the shared tail of the pipeline).  The claimed
GitHub instance is the witness below. -/
theorem c7_ssh_https_agree (resolve : List Char → List Char)
    (host path : List Char) (hc : ':' ∉ host)
    (h1 : pyStrip ("git@".data ++ (host ++ ':' :: path))
      = "git@".data ++ (host ++ ':' :: path))
    (h2 : pyStrip ("https://".data ++ (host ++ '/' :: path))
      = "https://".data ++ (host ++ '/' :: path)) :
    normalize_repo_identifier resolve
        (some ("git@".data ++ (host ++ ':' :: path)))
      = normalize_repo_identifier resolve
          (some ("https://".data ++ (host ++ '/' :: path))) := by
  have hLne : ("git@".data ++ (host ++ ':' :: path)) ≠ [] := by
    intro hcontra; cases hcontra
  have hRne : ("https://".data ++ (host ++ '/' :: path)) ≠ [] := by
    intro hcontra; cases hcontra
  simp only [normalize_repo_identifier, h1, h2, if_neg hLne, if_neg hRne]
  congr 1
  have hpre := isPrefixOf_append_self "git@".data (host ++ ':' :: path)
  have hnpre := gitat_not_prefix_https (host ++ '/' :: path)
  have hdrop : ("git@".data ++ (host ++ ':' :: path)).drop 4 = host ++ ':' :: path := rfl
  have hcolon := splitFirstSub_colon host path hc
  have hhttps := splitFirstSub_https (host ++ '/' :: path)
  simp only [normalizeCore, hpre, if_true, hdrop, hcolon, hnpre,
    Bool.false_eq_true, if_false, hhttps]

/-- Witness for `c7_ssh_https_agree`: the GitHub example of the claim. -/
theorem c7_ssh_https_agree_witness :
    normalize_repo_identifier id (some "git@github.com:acme/repo.git".data)
      = normalize_repo_identifier id
          (some "https://github.com/acme/repo.git".data) :=
  c7_ssh_https_agree id "github.com".data "acme/repo.git".data
    (by decide) (by decide) (by decide)

/-- `dropWhile` never lengthens a list. -/
theorem length_dropWhileChar_le (p : Char → Bool) (s : List Char) :
    (s.dropWhile p).length ≤ s.length := by
  induction s with
  | nil => simp
  | cons c cs ih =>
    by_cases hp : p c
    · simp only [List.dropWhile, hp, List.length_cons]
      exact Nat.le_succ_of_le ih
    · simp [List.dropWhile, hp]

/-- `rstrip` never lengthens a string. -/
theorem length_pyStripRight_le (s : List Char) :
    (pyStripRight s).length ≤ s.length := by
  have h := length_dropWhileChar_le pyIsSpace s.reverse
  simpa [pyStripRight] using h

/-- Claim C8, amended: for every prompt and every cap of at least one, the
summarizer's output never exceeds the cap; an input whose collapsed form is
within the cap (in particular exactly at it) is returned as that collapsed
form unchanged; and an input whose collapsed form is one character over the
cap ends in the ellipsis character with length at most the cap — only at
most, because the truncation point may expose trailing whitespace that
`rstrip` removes before the ellipsis is appended. -/
theorem c8_cap_bounds (prompt : List Char) (cap : Int) (hcap : 1 ≤ cap) :
    ((summarize_prompt prompt cap).length : Int) ≤ cap ∧
    (((summarizeCollapsed prompt).length : Int) ≤ cap →
      summarize_prompt prompt cap = summarizeCollapsed prompt) ∧
    (((summarizeCollapsed prompt).length : Int) = cap + 1 →
      (summarize_prompt prompt cap).getLast? = some '…' ∧
      ((summarize_prompt prompt cap).length : Int) ≤ cap) := by
  simp only [summarize_prompt]
  by_cases hs : summarizeCollapsed prompt = []
  · rw [if_pos hs]
    refine ⟨?_, fun _ => by rw [hs], fun hlen => ?_⟩
    · simp only [List.length_nil, Nat.cast_zero]
      omega
    · rw [hs] at hlen
      simp only [List.length_nil, Nat.cast_zero] at hlen
      exact absurd hlen (by omega)
  · rw [if_neg hs]
    by_cases hgt : ((summarizeCollapsed prompt).length : Int) > cap
    · rw [if_pos hgt]
      have h0 : (0 : Int) ≤ cap - 1 := by omega
      have h1 : (pySliceTo (summarizeCollapsed prompt) (cap - 1)).length
          ≤ (cap - 1).toNat := by
        simp only [pySliceTo, if_pos h0]
        simp [List.length_take]
      have h2 : (pyStripRight (pySliceTo (summarizeCollapsed prompt)
          (cap - 1))).length ≤ (cap - 1).toNat :=
        le_trans (length_pyStripRight_le _) h1
      have h3 : (((cap - 1).toNat : Int)) = cap - 1 := Int.toNat_of_nonneg h0
      have hlenfin : ((pyStripRight (pySliceTo (summarizeCollapsed prompt)
          (cap - 1)) ++ ['…']).length : Int) ≤ cap := by
        have h4 : (pyStripRight (pySliceTo (summarizeCollapsed prompt) (cap - 1))
              ++ ['…']).length
            = (pyStripRight (pySliceTo (summarizeCollapsed prompt)
                (cap - 1))).length + 1 := by
          simp
        rw [h4]
        push_cast
        omega
      refine ⟨hlenfin, fun hle => by omega, fun _ => ⟨by simp, hlenfin⟩⟩
    · rw [if_neg hgt]
      exact ⟨by omega, fun _ => rfl, fun heq => by omega⟩

/-- Witness for `c8_cap_bounds` at prompt `"hello"` (collapsed length 5) and
cap 4: one character over the cap. -/
theorem c8_cap_bounds_witness :
    (1 : Int) ≤ 4 ∧
    (((summarize_prompt "hello".data 4).length : Int) ≤ 4 ∧
      (((summarizeCollapsed "hello".data).length : Int) ≤ 4 →
        summarize_prompt "hello".data 4 = summarizeCollapsed "hello".data) ∧
      (((summarizeCollapsed "hello".data).length : Int) = 4 + 1 →
        (summarize_prompt "hello".data 4).getLast? = some '…' ∧
        ((summarize_prompt "hello".data 4).length : Int) ≤ 4)) :=
  ⟨by decide, c8_cap_bounds "hello".data 4 (by decide)⟩

/-- Claim C9: in the confirm-delete flow, the on-disk deletion is attempted
first and its outcome alone drives the in-memory update: the resulting disk
state is exactly the attempt's; the record is removed from the list precisely
when the handler reported success; a failed deletion leaves the list intact;
and an already-missing backing file produces the non-raising
"Session file already removed." outcome with the list unchanged. -/
theorem c9_delete_consistency (disk : FileState) (l : List SessionSummary)
    (cur : Nat) (h : cur < l.length) :
    (confirmDeleteYes disk l cur).disk = (delete_session disk (l.get ⟨cur, h⟩)).1 ∧
    (confirmDeleteYes disk l cur).summaries
      = (if (delete_session disk (l.get ⟨cur, h⟩)).2.1 = true
          then l.eraseIdx cur else l) ∧
    ((delete_session disk (l.get ⟨cur, h⟩)).2.1 = false →
      (confirmDeleteYes disk l cur).summaries = l) ∧
    (disk = FileState.missing →
      delete_session disk (l.get ⟨cur, h⟩)
        = (FileState.missing, false, "Session file already removed.".data) ∧
      (confirmDeleteYes disk l cur).summaries = l) := by
  cases disk with
  | missing => exact ⟨rfl, rfl, fun _ => rfl, fun _ => ⟨rfl, rfl⟩⟩
  | presentFailing exc => exact ⟨rfl, rfl, fun _ => rfl, fun hm => nomatch hm⟩
  | present =>
    have hd2 : (confirmDeleteYes FileState.present l cur).disk
        = FileState.missing := by
      simp only [confirmDeleteYes, delete_session]
      split_ifs <;> rfl
    have hs2 : (confirmDeleteYes FileState.present l cur).summaries
        = l.eraseIdx cur := by
      simp only [confirmDeleteYes, delete_session]
      split_ifs <;> rfl
    refine ⟨hd2, ?_, ?_, ?_⟩
    · rw [hs2]
      rfl
    · intro hfalse
      simp [delete_session] at hfalse
    · intro hm
      cases hm

/-- Witness for `c9_delete_consistency`: a one-record list whose backing file
is already missing — the handler reports the non-error notice and the record
stays in the list. -/
theorem c9_delete_consistency_witness :
    (confirmDeleteYes FileState.missing [(default : SessionSummary)] 0).summaries
      = [(default : SessionSummary)] ∧
    delete_session FileState.missing
        ([(default : SessionSummary)].get ⟨0, by decide⟩)
      = (FileState.missing, false, "Session file already removed.".data) := by
  have hx := c9_delete_consistency FileState.missing [(default : SessionSummary)] 0
    (by decide)
  exact ⟨(hx.2.2.2 rfl).2, (hx.2.2.2 rfl).1⟩

end ListSessions
